import Mathlib

/-!
Verification of the zen TCP load balancer core against its specification.

The Go source is shallowly embedded: durations and Go `int`/`int64` values
become `Int` (durations in nanoseconds), TCP connections become numeric
identifiers, and I/O outcomes (dialing, probing) are passed in as explicit
oracle arguments.  The repository snapshot contains two revisions of the
connection pool; the embedding below follows the later revision
(`ErrPoolClosed`, `net.DialTimeout`, the revision at lines 243-344 of
backend/connectionPool.go), whose behaviour the specification's Get
contract describes.
-/

/-- Configuration of a per-backend connection pool
(backend/connectionPool.go, `ConnectionPoolConfig`).  Durations in ns. -/
structure ConnectionPoolConfig where
  address : String
  maxIdle : Int
  maxActive : Int
  idleTimeout : Int
  connectTimeout : Int
  deriving DecidableEq, Repr

/-- An idle pool entry (`PoolConn`): connection id and last-used timestamp. -/
structure PoolConn where
  conn : Nat
  lastUsedAt : Int
  deriving DecidableEq, Repr

/-- Mutable state of a `ConnectionPool`.  The idle stack is kept in Go slice
order: pushes append at the end, the top of the stack is the last element. -/
structure ConnectionPool where
  config : ConnectionPoolConfig
  idleConns : List PoolConn
  activeCount : Int
  closed : Bool
  deriving DecidableEq, Repr

/-- `newConfig` (backend/connectionPool.go): fixes `connectTimeout` to
5 * time.Second = 5e9 ns. -/
def newConfig (address : String) (maxIdle maxActive : Int) (idleTimeout : Int) :
    ConnectionPoolConfig :=
  { address := address
    maxIdle := maxIdle
    maxActive := maxActive
    idleTimeout := idleTimeout
    connectTimeout := 5 * 1000000000 }

/-- `NewConnectionPool`: empty idle stack, zero active count, open. -/
def NewConnectionPool (address : String) (maxIdle maxActive : Int) (idleTimeout : Int) :
    ConnectionPool :=
  { config := newConfig address maxIdle maxActive idleTimeout
    idleConns := []
    activeCount := 0
    closed := false }

/-- The `PooledConnection` wrapper returned by `Get`: it is a distinct Go type
from `*net.TCPConn` (it delegates to the wrapped conn and returns it to the
pool on Close). -/
structure PooledConnection where
  conn : Nat
  deriving DecidableEq, Repr

/-- Errors `Get` can fail with. -/
inductive GetError where
  | poolClosed
  | poolExhausted
  | dialError (e : String)
  deriving DecidableEq, Repr

/-- `ConnectionPool.Get` (second revision, lines 243-276).  `dial` is the
outcome oracle for `net.DialTimeout`, taking the timeout the code passes
(`cp.config.connectTimeout`) and returning a fresh connection id or an error.
Returns the result together with the pool state at lock release. -/
def ConnectionPool.Get (cp : ConnectionPool) (dial : Int → Except String Nat) :
    Except GetError PooledConnection × ConnectionPool :=
  if cp.closed then
    (.error .poolClosed, cp)
  else
    match cp.idleConns.getLast? with
    | some poolConn =>
        (.ok { conn := poolConn.conn }, { cp with idleConns := cp.idleConns.dropLast })
    | none =>
        if cp.activeCount ≥ cp.config.maxActive then
          (.error .poolExhausted, cp)
        else
          match dial cp.config.connectTimeout with
          | .error e => (.error (.dialError e), cp)
          | .ok c =>
              (.ok { conn := c }, { cp with activeCount := cp.activeCount + 1 })

/-- `ConnectionPool.put` (second revision, lines 278-297).  `now` is the
current time used for `lastUsedAt`.  Closing the underlying conn has no
further effect on pool state and is not modelled beyond dropping it. -/
def ConnectionPool.put (cp : ConnectionPool) (conn : Nat) (now : Int) : ConnectionPool :=
  if cp.closed then
    cp
  else if (cp.idleConns.length : Int) ≥ cp.config.maxIdle then
    { cp with activeCount := cp.activeCount - 1 }
  else
    { cp with idleConns := cp.idleConns ++ [{ conn := conn, lastUsedAt := now }] }

/-- `ConnectionPool.Close`: set the flag, close and drop all idle conns. -/
def ConnectionPool.Close (cp : ConnectionPool) : ConnectionPool :=
  { cp with closed := true, idleConns := [] }

/-- Whether an idle entry has expired at time `now` (cleanup's test
`now.Sub(idleConn.lastUsedAt) > cp.config.idleTimeout`). -/
def PoolConn.expired (pc : PoolConn) (idleTimeout : Int) (now : Int) : Bool :=
  now - pc.lastUsedAt > idleTimeout

/-- `ConnectionPool.cleanup` (second revision, lines 321-344): on an open pool
drop every expired idle entry, decrementing `activeCount` once per entry
dropped. -/
def ConnectionPool.cleanup (cp : ConnectionPool) (now : Int) : ConnectionPool :=
  if cp.closed then
    cp
  else
    { cp with
      idleConns := cp.idleConns.filter (fun pc => !pc.expired cp.config.idleTimeout now)
      activeCount :=
        cp.activeCount - cp.idleConns.countP (fun pc => pc.expired cp.config.idleTimeout now) }

/-- A backend (the second revision of the Backend type, with its owned pool;
the atomic `alive` flag is a plain Bool in this sequential embedding). -/
structure Backend where
  address : String
  connectionPool : ConnectionPool
  alive : Bool
  deriving DecidableEq, Repr

/-- `NewBackend` (second revision): the pool is created as
`NewConnectionPool(address, 10, 100, 30)`.  In Go the untyped constant `30`
becomes the `time.Duration` 30 nanoseconds, which is what the embedding
records. -/
def NewBackend (address : String) : Backend :=
  { address := address
    connectionPool := NewConnectionPool address 10 100 30
    alive := true }

/-- The backend registry (`Pool` in backend/backendPool.go): the full ordered
backend list plus the atomically published live snapshot. -/
structure RegistryPool where
  allBackends : List Backend
  aliveBackends : List Backend
  deriving DecidableEq, Repr

/-- `NewBackendPool`: one backend per address, all alive, snapshot = all. -/
def NewBackendPool (addresses : List String) : RegistryPool :=
  let allBps := addresses.map NewBackend
  { allBackends := allBps, aliveBackends := allBps }

/-- The linear scan of `updateBackendStatus`: set the `alive` flag of the
first backend whose address matches and stop; `none` when no backend
matches. -/
def setAliveFirst : List Backend → String → Bool → Option (List Backend)
  | [], _, _ => none
  | b :: rest, address, alive =>
      if b.address == address then
        some ({ b with alive := alive } :: rest)
      else
        match setAliveFirst rest address alive with
        | none => none
        | some rest1 => some (b :: rest1)

/-- `updateBackendStatus` (backend/backendPool.go lines 50-77): locate the
backend by address; if none matches, log and return; otherwise flip its
flag and publish a freshly rebuilt live snapshot in `allBackends` order. -/
def RegistryPool.updateBackendStatus (pool : RegistryPool) (address : String)
    (alive : Bool) : RegistryPool :=
  match setAliveFirst pool.allBackends address alive with
  | none => pool
  | some newAll =>
      { allBackends := newAll
        aliveBackends := newAll.filter (fun b => b.alive) }

/-- Modulus of Go's wrapping `atomic.Uint64` counter. -/
def uint64Mod : Nat := 2 ^ 64

/-- The round-robin selector state (balancer/loadBalancer.go): a uint64
counter, stored as its value below `2^64`. -/
structure RoundRobin where
  counter : Nat
  deriving DecidableEq, Repr

/-- `RoundRobin.Next` (second revision, lines 29-40): on an empty snapshot
fail with the no-backends error; otherwise increment the counter (wrapping
as uint64) and return `snapshot[counter mod len(snapshot)]`. -/
def RoundRobin.Next (rr : RoundRobin) (aliveBackends : List Backend) :
    Option Backend × RoundRobin :=
  if h : aliveBackends.length = 0 then
    (none, rr)
  else
    let nxt := (rr.counter + 1) % uint64Mod
    (some (aliveBackends.get ⟨nxt % aliveBackends.length,
        Nat.mod_lt _ (Nat.pos_of_ne_zero h)⟩),
      { counter := nxt })

/-- Run `n` successive `Next` calls by a single caller against a stable
snapshot, collecting the returned backends in order. -/
def RoundRobin.run (rr : RoundRobin) (snapshot : List Backend) : Nat → List Backend × RoundRobin
  | 0 => ([], rr)
  | n + 1 =>
      match rr.Next snapshot with
      | (some b, rr1) =>
          let rest := rr1.run snapshot n
          (b :: rest.1, rest.2)
      | (none, rr1) => ([], rr1)

/-- Dynamic type of a `net.Conn` value held by the proxy engine: either a raw
`*net.TCPConn` (the accepted client socket) or the pool's `*PooledConnection`
wrapper. -/
inductive ProxyConn where
  | tcpConn (id : Nat)
  | pooledConn (id : Nat)
  deriving DecidableEq, Repr

/-- The Go type assertion `target.(*net.TCPConn)` in `copyData`:
it succeeds only on a raw TCP connection, never on the `PooledConnection`
wrapper (a distinct struct type that does not expose `CloseWrite`). -/
def ProxyConn.isTCPConn : ProxyConn → Bool
  | .tcpConn _ => true
  | .pooledConn _ => false

/-- Whether the epilogue of `copyData` (handler/connectionHandler.go lines
207-209) half-closes the write side of the copy target: it calls
`CloseWrite` exactly when the type assertion to `*net.TCPConn` succeeds. -/
def copyDataHalfCloses (target : ProxyConn) : Bool :=
  target.isTCPConn

/-- The `net.Conn` value the proxy engine holds for a backend connection
obtained from `ConnectionPool.Get`: always the `PooledConnection` wrapper. -/
def ProxyConn.ofPooled (pc : PooledConnection) : ProxyConn :=
  .pooledConn pc.conn

/-- Health checker configuration (backend/healthChecker.go); durations in
ns, thresholds are Go ints. -/
structure HealthCheckConfig where
  Interval : Int
  Timeout : Int
  HealthyThreshold : Int
  UnhealthyThreshold : Int
  deriving DecidableEq, Repr

/-- Per-backend health state (`BackendHealth`); the probe error is kept as
its message string. -/
structure BackendHealth where
  consecutiveSuccesses : Int
  consecutiveFailures : Int
  lastCheckTime : Int
  lastError : Option String
  deriving DecidableEq, Repr

/-- The counter update `checkBackend` performs on a health record once the
probe outcome is known (healthChecker.go lines 130-141): a success bumps
the success streak, zeroes failures and clears the stored error; a failure
bumps the failure streak and zeroes successes, leaving `lastError` to the
earlier `storeLastError` call. -/
def applyProbeResult (health : BackendHealth) (healthy : Bool) : BackendHealth :=
  if healthy then
    { health with
      consecutiveSuccesses := health.consecutiveSuccesses + 1
      consecutiveFailures := 0
      lastError := none }
  else
    { health with
      consecutiveFailures := health.consecutiveFailures + 1
      consecutiveSuccesses := 0 }

/-- `evaluateBackendStatus` (healthChecker.go lines 146-170) as the new value
of the backend's `Alive` flag: promote a dead backend whose success streak
reached `HealthyThreshold`, demote an alive backend whose failure streak
reached `UnhealthyThreshold`, otherwise keep the current flag. -/
def evaluateBackendStatus (cfg : HealthCheckConfig) (currentlyAlive : Bool)
    (health : BackendHealth) : Bool :=
  if !currentlyAlive && health.consecutiveSuccesses ≥ cfg.HealthyThreshold then
    true
  else if currentlyAlive && health.consecutiveFailures ≥ cfg.UnhealthyThreshold then
    false
  else
    currentlyAlive

/-- The per-probe state transition of `checkBackend` on one backend's
`(alive, health)` pair, given the probe outcome `healthy` and the probe
start time: record the probe, then evaluate the liveness transition. -/
def checkBackendStep (cfg : HealthCheckConfig) (alive : Bool)
    (health : BackendHealth) (healthy : Bool) (startTime : Int) :
    Bool × BackendHealth :=
  let h1 := { applyProbeResult health healthy with lastCheckTime := startTime }
  (evaluateBackendStatus cfg alive h1, h1)

/-- The `backendHealth` map, as an association list keyed by address. -/
def HealthMap : Type := List (String × BackendHealth)

/-- Store a value under a key, replacing the first binding if present and
appending otherwise (Go map assignment). -/
def HealthMap.store : HealthMap → String → BackendHealth → HealthMap
  | [], address, h => [(address, h)]
  | (k, v) :: rest, address, h =>
      if k == address then (address, h) :: rest
      else (k, v) :: HealthMap.store rest address h

/-- Map lookup. -/
def HealthMap.find : HealthMap → String → Option BackendHealth
  | [], _ => none
  | (k, v) :: rest, address => if k == address then some v else HealthMap.find rest address

/-- `storeLastError` (healthChecker.go lines 183-202): record the probe error
on the existing entry for the address, and do nothing when the address has
no entry yet. -/
def storeLastError (m : HealthMap) (address : String) (err : String) : HealthMap :=
  match m.find address with
  | some health => m.store address { health with lastError := some err }
  | none => m

/-- `isBackendHealthy` (healthChecker.go lines 172-181): the dial outcome is
the oracle `probe`; a failed dial stores the error (on existing entries
only) and reports unhealthy. -/
def isBackendHealthy (m : HealthMap) (address : String)
    (probe : Except String Unit) : Bool × HealthMap :=
  match probe with
  | .error e => (false, storeLastError m address e)
  | .ok _ => (true, m)

/-- The effect of `checkBackend` (healthChecker.go lines 114-144) on the
`backendHealth` map: probe first (which may store the error through
`storeLastError`), then under the lock fetch the entry — creating a zero
`BackendHealth` if the address is new — stamp `lastCheckTime` and apply the
probe counters.  The liveness transition it also performs acts on the
backend and registry, modelled by `checkBackendStep`. -/
def checkBackendHealth (m : HealthMap) (address : String)
    (probe : Except String Unit) (startTime : Int) : HealthMap :=
  let r := isBackendHealthy m address probe
  let health := (r.2.find address).getD
    { consecutiveSuccesses := 0, consecutiveFailures := 0
      lastCheckTime := 0, lastError := none }
  let h1 := { applyProbeResult health r.1 with lastCheckTime := startTime }
  r.2.store address h1

/-- Environment of one client's backend-acquisition loop
(`getBackendConnectionWithRetry`): the selector's answer per attempt, the
pool-Get outcome per backend address, the value of `GetAvailableCount`, and
whether the request deadline has fired at the start of an attempt.
`GetAvailableCount` itself is absent from the sources (only its callers
appear); per the spec it is the length of the current live snapshot, and it
enters this model only as the opaque count the loop compares against. -/
structure RetryEnv where
  maxRetries : Nat
  balancerNext : Nat → Option String
  getOk : String → Bool
  availableCount : Nat
  ctxDone : Nat → Bool

/-- Outcome of the acquisition loop. -/
inductive RetryOutcome where
  | success (address : String)
  | failure
  deriving DecidableEq, Repr

/-- The attempt loop of `getBackendConnectionWithRetry`
(handler/connectionHandler.go lines 85-134), with the remaining attempt
budget as fuel.  Returns the outcome together with the ordered list of
addresses a pool `Get` was issued for.  An attempt: abort on a fired
deadline; on a selector error just retry; skip a backend already in the
attempt set — and stop for good if the attempt set already covers
`GetAvailableCount` — and otherwise mark the backend tried and issue the
pool `Get`, returning on success and retrying on failure. -/
def retryGo (env : RetryEnv) : Nat → Nat → List String → RetryOutcome × List String
  | 0, _, _ => (.failure, [])
  | fuel + 1, attempt, tried =>
      if env.ctxDone attempt then
        (.failure, [])
      else
        match env.balancerNext attempt with
        | none => retryGo env fuel (attempt + 1) tried
        | some address =>
            if address ∈ tried then
              if env.availableCount ≤ tried.length then
                (.failure, [])
              else
                retryGo env fuel (attempt + 1) tried
            else
              if env.getOk address then
                (.success address, [address])
              else
                let rest := retryGo env fuel (attempt + 1) (tried ++ [address])
                (rest.1, address :: rest.2)

/-- `getBackendConnectionWithRetry`: run up to `maxRetries` attempts starting
from an empty attempt set. -/
def getBackendConnectionWithRetry (env : RetryEnv) : RetryOutcome × List String :=
  retryGo env env.maxRetries 1 []

/-- A pool operation, each carrying the oracles the code consults while the
lock is held: the dial outcome for `Get`, and the current time for `put`
and `cleanup`. -/
inductive PoolOp where
  | get (dial : Except String Nat)
  | put (conn : Nat) (now : Int)
  | close
  | cleanup (now : Int)
  deriving Repr

/-- A pool together with the number of connections currently checked out by
callers (`outstanding`).  The pool code never reads `outstanding`; it only
records how many `PooledConnection`s the environment holds, so that traces
can be restricted to ones where `put` is invoked only by
`PooledConnection.Close` on a checked-out connection. -/
structure PoolTraceState where
  pool : ConnectionPool
  outstanding : Nat
  deriving DecidableEq, Repr

/-- One operation applied to the pool, with the caller bookkeeping: a
successful `Get` hands a connection out, a `put` returns one. -/
def PoolTraceState.step (s : PoolTraceState) : PoolOp → PoolTraceState
  | .get dial =>
      let r := s.pool.Get (fun _ => dial)
      { pool := r.2
        outstanding := match r.1 with
          | .ok _ => s.outstanding + 1
          | .error _ => s.outstanding }
  | .put conn now => { pool := s.pool.put conn now, outstanding := s.outstanding - 1 }
  | .close => { pool := s.pool.Close, outstanding := s.outstanding }
  | .cleanup now => { pool := s.pool.cleanup now, outstanding := s.outstanding }

/-- An operation is admissible when the environment can actually issue it:
`put` happens only inside `PooledConnection.Close`, so it needs a
checked-out connection; every other operation is always possible. -/
def PoolTraceState.opOk (s : PoolTraceState) : PoolOp → Bool
  | .put _ _ => decide (0 < s.outstanding)
  | _ => true

/-- Whether a whole operation sequence is admissible from a state. -/
def PoolTraceState.validOps (s : PoolTraceState) : List PoolOp → Bool
  | [] => true
  | op :: rest => s.opOk op && (s.step op).validOps rest

/-- Execute an operation sequence. -/
def PoolTraceState.runOps (s : PoolTraceState) (ops : List PoolOp) : PoolTraceState :=
  ops.foldl PoolTraceState.step s

/-- The state right after `NewConnectionPool`: fresh pool, nothing handed
out. -/
def initPoolState (address : String) (maxIdle maxActive idleTimeout : Int) :
    PoolTraceState :=
  { pool := NewConnectionPool address maxIdle maxActive idleTimeout
    outstanding := 0 }

/-- C2 counterexample: on an open pool with room in the idle stack, `put`
pushes the connection but leaves `activeCount` unchanged (5, not the
claimed 5 - 1 = 4). -/
theorem put_decrement_counterexample :
    (ConnectionPool.put
        { config := newConfig "b1:80" 1 100 30
          idleConns := [], activeCount := 5, closed := false } 3 0).idleConns =
      [{ conn := 3, lastUsedAt := 0 }] ∧
    (ConnectionPool.put
        { config := newConfig "b1:80" 1 100 30
          idleConns := [], activeCount := 5, closed := false } 3 0).activeCount = 5 ∧
    ((5 : Int) ≠ 5 - 1) := by
  decide

/-- C2 (amended): `put` on a closed pool closes the conn and leaves the pool
state unchanged; on an open pool with a full idle stack it closes the conn
and decrements `activeCount`; otherwise it pushes a fresh `PoolConn` with
the current time and leaves `activeCount` unchanged. -/
theorem put_behavior_amended (cp : ConnectionPool) (conn : Nat) (now : Int) :
    (cp.closed = true → cp.put conn now = cp) ∧
    (cp.closed = false → (cp.idleConns.length : Int) ≥ cp.config.maxIdle →
      cp.put conn now = { cp with activeCount := cp.activeCount - 1 }) ∧
    (cp.closed = false → (cp.idleConns.length : Int) < cp.config.maxIdle →
      cp.put conn now =
        { cp with idleConns := cp.idleConns ++ [{ conn := conn, lastUsedAt := now }] }) := by
  refine ⟨fun h => ?_, fun h h2 => ?_, fun h h2 => ?_⟩
  · simp [ConnectionPool.put, h]
  · simp [ConnectionPool.put, h, h2]
  · simp [ConnectionPool.put, h, not_le.mpr h2]

/-- C2 witness: the three branches of the amended `put` contract evaluated on
concrete pools. -/
theorem put_behavior_amended_witness :
    (ConnectionPool.put
        { config := newConfig "a" 0 1 2, idleConns := [], activeCount := 3, closed := true }
        7 9 =
      { config := newConfig "a" 0 1 2, idleConns := [], activeCount := 3, closed := true }) ∧
    (ConnectionPool.put
        { config := newConfig "a" 0 1 2, idleConns := [], activeCount := 3, closed := false }
        7 9 =
      { config := newConfig "a" 0 1 2, idleConns := [], activeCount := 3 - 1, closed := false }) ∧
    (ConnectionPool.put
        { config := newConfig "a" 1 1 2, idleConns := [], activeCount := 3, closed := false }
        7 9 =
      { config := newConfig "a" 1 1 2, idleConns := [{ conn := 7, lastUsedAt := 9 }],
        activeCount := 3, closed := false }) :=
  ⟨(put_behavior_amended _ 7 9).1 rfl,
   (put_behavior_amended _ 7 9).2.1 rfl (by decide),
   (put_behavior_amended _ 7 9).2.2 rfl (by decide)⟩

/-- C3: evaluating the pool configuration a freshly constructed backend owns.
`NewBackend` passes the untyped constant `30` as the `time.Duration`
idle timeout, so the pool is configured with `idleTimeout` = 30
nanoseconds — not the 30 seconds (30 * 10^9 ns) the specification states —
while `maxIdle` = 10, `maxActive` = 100 and `connectTimeout` = 5 s hold. -/
theorem newBackend_pool_config_eval :
    (NewBackend "10.0.1.10:8080").connectionPool.config =
      { address := "10.0.1.10:8080", maxIdle := 10, maxActive := 100,
        idleTimeout := 30, connectTimeout := 5000000000 } ∧
    (30 : Int) ≠ 30 * 1000000000 := by
  decide

/-- C4: the `Get` contract.  On a closed pool it fails with the pool-closed
error; on a non-empty idle stack it pops the most recently pushed entry and
returns it wrapped, leaving `activeCount` unchanged; with an empty idle
stack and `activeCount ≥ maxActive` it fails with the pool-exhausted error;
otherwise it dials with `connectTimeout`, incrementing `activeCount` and
wrapping on success and returning the dial error on failure. -/
theorem get_behavior (cp : ConnectionPool) (dial : Int → Except String Nat) :
    (cp.closed = true → cp.Get dial = (.error .poolClosed, cp)) ∧
    (cp.closed = false → ∀ l pc, cp.idleConns = l ++ [pc] →
      cp.Get dial = (.ok { conn := pc.conn }, { cp with idleConns := l })) ∧
    (cp.closed = false → cp.idleConns = [] → cp.activeCount ≥ cp.config.maxActive →
      cp.Get dial = (.error .poolExhausted, cp)) ∧
    (cp.closed = false → cp.idleConns = [] → cp.activeCount < cp.config.maxActive →
      ∀ c, dial cp.config.connectTimeout = .ok c →
      cp.Get dial = (.ok { conn := c }, { cp with activeCount := cp.activeCount + 1 })) ∧
    (cp.closed = false → cp.idleConns = [] → cp.activeCount < cp.config.maxActive →
      ∀ e, dial cp.config.connectTimeout = .error e →
      cp.Get dial = (.error (.dialError e), cp)) := by
  refine ⟨fun h => ?_, fun h l pc hl => ?_, fun h hl hge => ?_,
    fun h hl hlt c hd => ?_, fun h hl hlt e hd => ?_⟩
  · simp [ConnectionPool.Get, h]
  · simp [ConnectionPool.Get, h, hl]
  · simp [ConnectionPool.Get, h, hl, hge]
  · simp [ConnectionPool.Get, h, hl, hd, not_le.mpr hlt]
  · simp [ConnectionPool.Get, h, hl, hd, not_le.mpr hlt]

/-- C4 witness: the five branches of the `Get` contract on concrete pools. -/
theorem get_behavior_witness :
    (ConnectionPool.Get
        { config := newConfig "a" 1 1 2, idleConns := [], activeCount := 0, closed := true }
        (fun _ => .ok 9) =
      (.error .poolClosed,
        { config := newConfig "a" 1 1 2, idleConns := [], activeCount := 0, closed := true })) ∧
    (ConnectionPool.Get
        { config := newConfig "a" 2 2 2
          idleConns := [{ conn := 4, lastUsedAt := 0 }, { conn := 5, lastUsedAt := 1 }]
          activeCount := 2, closed := false }
        (fun _ => .ok 9) =
      (.ok { conn := 5 },
        { config := newConfig "a" 2 2 2, idleConns := [{ conn := 4, lastUsedAt := 0 }]
          activeCount := 2, closed := false })) ∧
    (ConnectionPool.Get
        { config := newConfig "a" 1 1 2, idleConns := [], activeCount := 1, closed := false }
        (fun _ => .ok 9) =
      (.error .poolExhausted,
        { config := newConfig "a" 1 1 2, idleConns := [], activeCount := 1, closed := false })) ∧
    (ConnectionPool.Get
        { config := newConfig "a" 1 1 2, idleConns := [], activeCount := 0, closed := false }
        (fun _ => .ok 9) =
      (.ok { conn := 9 },
        { config := newConfig "a" 1 1 2, idleConns := [], activeCount := 0 + 1,
          closed := false })) ∧
    (ConnectionPool.Get
        { config := newConfig "a" 1 1 2, idleConns := [], activeCount := 0, closed := false }
        (fun _ => .error "refused") =
      (.error (.dialError "refused"),
        { config := newConfig "a" 1 1 2, idleConns := [], activeCount := 0,
          closed := false })) :=
  ⟨(get_behavior _ _).1 rfl,
   (get_behavior _ _).2.1 rfl [{ conn := 4, lastUsedAt := 0 }] { conn := 5, lastUsedAt := 1 } rfl,
   (get_behavior _ _).2.2.1 rfl rfl (by decide),
   (get_behavior _ _).2.2.2.1 rfl rfl (by decide) 9 rfl,
   (get_behavior _ _).2.2.2.2 rfl rfl (by decide) "refused" rfl⟩

/-- C6 counterexample: a backend connection handed out by `Get` is the
`PooledConnection` wrapper, and `copyData` half-closes its target only when
the target is a raw `*net.TCPConn`; so the client-to-backend direction,
whose target is the pooled backend connection, closes no write side. -/
theorem half_close_counterexample :
    (ConnectionPool.Get
        { config := newConfig "b1:80" 10 100 30
          idleConns := [{ conn := 4, lastUsedAt := 0 }], activeCount := 1, closed := false }
        (fun _ => .error "unused")).1 = .ok { conn := 4 } ∧
    copyDataHalfCloses (ProxyConn.ofPooled { conn := 4 }) = false :=
  ⟨rfl, rfl⟩

/-- C6 (amended): when a copy direction finishes, `copyData` half-closes the
write side of its target only if the target is a raw TCP connection; the
client socket is, so the backend-to-client direction half-closes the
client, but a pooled backend connection is not, so the client-to-backend
direction leaves the backend write side open. -/
theorem half_close_amended (pc : PooledConnection) (id : Nat) :
    copyDataHalfCloses (ProxyConn.tcpConn id) = true ∧
    copyDataHalfCloses (ProxyConn.ofPooled pc) = false :=
  ⟨rfl, rfl⟩

/-- The linear scan finds no backend exactly when no address matches. -/
theorem setAliveFirst_eq_none_iff (l : List Backend) (address : String) (alive : Bool) :
    setAliveFirst l address alive = none ↔ ∀ b ∈ l, b.address ≠ address := by
  induction l with
  | nil => simp [setAliveFirst]
  | cons b rest ih =>
      by_cases hb : b.address = address
      · simp [setAliveFirst, hb]
      · cases hr : setAliveFirst rest address alive with
        | none =>
            constructor
            · intro _ x hx
              rcases List.mem_cons.mp hx with h1 | h1
              · rw [h1]; exact hb
              · exact ih.mp hr x h1
            · intro _
              simp [setAliveFirst, hb, hr]
        | some rest1 =>
            constructor
            · intro h
              simp [setAliveFirst, hb, hr] at h
            · intro hall
              exfalso
              have hn : setAliveFirst rest address alive = none :=
                ih.mpr (fun x hx => hall x (List.mem_cons_of_mem _ hx))
              rw [hn] at hr
              exact absurd hr (by simp)

/-- C7: after an `UpdateStatus` whose address matches some backend, the
published live snapshot is exactly the alive-filtered `allBackends` list —
hence also in `allBackends` order; an `UpdateStatus` matching no backend
leaves the registry (snapshot and every alive flag) unchanged. -/
theorem updateStatus_snapshot (pool : RegistryPool) (address : String) (alive : Bool) :
    ((∃ b ∈ pool.allBackends, b.address = address) →
      (pool.updateBackendStatus address alive).aliveBackends =
        (pool.updateBackendStatus address alive).allBackends.filter (fun b => b.alive)) ∧
    ((∀ b ∈ pool.allBackends, b.address ≠ address) →
      pool.updateBackendStatus address alive = pool) := by
  constructor
  · intro h
    unfold RegistryPool.updateBackendStatus
    cases hs : setAliveFirst pool.allBackends address alive with
    | none =>
        obtain ⟨b, hb, hba⟩ := h
        exact absurd hba ((setAliveFirst_eq_none_iff _ _ _).mp hs b hb)
    | some newAll => rfl
  · intro h
    unfold RegistryPool.updateBackendStatus
    rw [(setAliveFirst_eq_none_iff _ _ _).mpr h]

/-- C7 witness: both branches on a two-backend registry. -/
theorem updateStatus_snapshot_witness :
    ((NewBackendPool ["a:1", "b:2"]).updateBackendStatus "a:1" false).aliveBackends =
      ((NewBackendPool ["a:1", "b:2"]).updateBackendStatus "a:1" false).allBackends.filter
        (fun b => b.alive) ∧
    (NewBackendPool ["a:1", "b:2"]).updateBackendStatus "zz" false =
      NewBackendPool ["a:1", "b:2"] :=
  ⟨(updateStatus_snapshot _ "a:1" false).1 ⟨NewBackend "a:1", by decide⟩,
   (updateStatus_snapshot _ "zz" false).2 (by decide)⟩

/-- Looking up a key right after storing it yields the stored record. -/
theorem HealthMap.find_store_self (m : HealthMap) (address : String) (h : BackendHealth) :
    HealthMap.find (HealthMap.store m address h) address = some h := by
  induction m with
  | nil => simp [HealthMap.store, HealthMap.find]
  | cons kv rest ih =>
      obtain ⟨k, v⟩ := kv
      cases hk : (k == address) with
      | true => simp [HealthMap.store, HealthMap.find, hk]
      | false => simp [HealthMap.store, HealthMap.find, hk, ih]

/-- C10: probing an address with no `backendHealth` entry yet, with a failing
dial, creates an entry with `consecutiveFailures` = 1 whose `lastError` is
still nil: `storeLastError` only records errors on pre-existing entries,
and the entry is created only after the probe returned. -/
theorem first_probe_error_discarded (m : HealthMap) (address e : String) (t : Int)
    (hnew : m.find address = none) :
    HealthMap.find (checkBackendHealth m address (.error e) t) address =
      some { consecutiveSuccesses := 0, consecutiveFailures := 1,
             lastCheckTime := t, lastError := none } := by
  unfold checkBackendHealth isBackendHealthy storeLastError
  simp only [hnew]
  simp [applyProbeResult, HealthMap.find_store_self]

/-- C10 witness: the first probe of a fresh address failing with a dial
error. -/
theorem first_probe_error_discarded_witness :
    HealthMap.find (checkBackendHealth [] "b1:80" (.error "connection refused") 5) "b1:80" =
      some { consecutiveSuccesses := 0, consecutiveFailures := 1,
             lastCheckTime := 5, lastError := none } :=
  first_probe_error_discarded [] "b1:80" "connection refused" 5 rfl

/-- Every address the retry loop issues a pool `Get` for is new: it is not in
the attempt set the loop started from, and the issued list has no
duplicates. -/
theorem retryGo_issued_nodup (env : RetryEnv) :
    ∀ fuel attempt tried,
      (retryGo env fuel attempt tried).2.Nodup ∧
      ∀ a ∈ (retryGo env fuel attempt tried).2, a ∉ tried := by
  intro fuel
  induction fuel with
  | zero => simp [retryGo]
  | succ n ih =>
      intro attempt tried
      unfold retryGo
      cases hctx : env.ctxDone attempt with
      | true => simp
      | false =>
          simp only [Bool.false_eq_true, if_false]
          cases hbal : env.balancerNext attempt with
          | none => exact ih (attempt + 1) tried
          | some address =>
              simp only
              by_cases hmem : address ∈ tried
              · simp only [hmem, if_true]
                by_cases hav : env.availableCount ≤ tried.length
                · simp [hav]
                · simp only [hav, if_false]
                  exact ih (attempt + 1) tried
              · simp only [hmem, if_false]
                cases hget : env.getOk address with
                | true => simp [hmem]
                | false =>
                    simp only [Bool.false_eq_true, if_false]
                    obtain ⟨ihnd, ihfresh⟩ := ih (attempt + 1) (tried ++ [address])
                    refine ⟨?_, ?_⟩
                    · refine List.nodup_cons.mpr ⟨?_, ihnd⟩
                      intro hin
                      exact ihfresh address hin (by simp)
                    · intro a ha
                      rcases List.mem_cons.mp ha with h1 | h1
                      · rw [h1]; exact hmem
                      · intro hat
                        exact ihfresh a h1 (by simp [hat])

/-- C5: during one client's acquisition loop no backend address receives more
than one pool `Get` (the issued list is duplicate-free), and whenever the
loop selects an already-attempted backend while the attempt set has reached
`GetAvailableCount`, it stops at once, issuing no further `Get`. -/
theorem retry_no_duplicate_dial (env : RetryEnv) :
    (getBackendConnectionWithRetry env).2.Nodup ∧
    (∀ fuel attempt tried address,
      env.ctxDone attempt = false →
      env.balancerNext attempt = some address →
      address ∈ tried →
      env.availableCount ≤ tried.length →
      retryGo env (fuel + 1) attempt tried = (.failure, [])) := by
  constructor
  · exact (retryGo_issued_nodup env env.maxRetries 1 []).1
  · intro fuel attempt tried address hctx hbal hmem hcount
    unfold retryGo
    simp [hctx, hbal, hmem, hcount]

/-- C5 witness: a single live backend "a" already attempted — the loop stops
immediately — and the issued list of a full run is duplicate-free. -/
theorem retry_no_duplicate_dial_witness :
    retryGo
      { maxRetries := 3, balancerNext := fun _ => some "a", getOk := fun _ => false,
        availableCount := 1, ctxDone := fun _ => false } 1 2 ["a"] = (.failure, []) ∧
    (getBackendConnectionWithRetry
      { maxRetries := 3, balancerNext := fun _ => some "a", getOk := fun _ => false,
        availableCount := 1, ctxDone := fun _ => false }).2.Nodup :=
  ⟨(retry_no_duplicate_dial _).2 0 2 ["a"] "a" rfl rfl (by decide) (by decide),
   (retry_no_duplicate_dial _).1⟩

/-- A strictly alternating probe trace S, F, S, F, ... applied to one
backend's (alive, health) pair: the probe of step `n` succeeds exactly for
even `n`. -/
def altRun (cfg : HealthCheckConfig) (s : Bool × BackendHealth) : Nat → Bool × BackendHealth
  | 0 => s
  | n + 1 =>
      let prev := altRun cfg s n
      checkBackendStep cfg prev.1 prev.2 (decide (n % 2 = 0)) 0

/-- Along the alternating trace started dead with no success streak and
`HealthyThreshold` = 2, the backend stays dead and its success streak never
exceeds one. -/
theorem altRun_stays_dead (cfg : HealthCheckConfig) (h0 : BackendHealth)
    (hth : cfg.HealthyThreshold = 2) (hs : h0.consecutiveSuccesses = 0) :
    ∀ n, (altRun cfg (false, h0) n).1 = false ∧
      (altRun cfg (false, h0) n).2.consecutiveSuccesses =
        (if n % 2 = 1 then 1 else 0) := by
  intro n
  induction n with
  | zero => simp [altRun, hs]
  | succ n ih =>
      obtain ⟨iha, ihs⟩ := ih
      by_cases hpar : n % 2 = 0
      · have hpar1 : (n + 1) % 2 = 1 := by omega
        have hs0 : (altRun cfg (false, h0) n).2.consecutiveSuccesses = 0 := by
          rw [ihs]; simp [hpar]
        simp only [altRun, checkBackendStep, applyProbeResult, evaluateBackendStatus,
          iha, hpar, hs0, hpar1, hth]
        simp
      · have hpar0 : (n + 1) % 2 = 0 := by omega
        simp only [altRun, checkBackendStep, applyProbeResult, evaluateBackendStatus,
          iha, hpar0, hth]
        simp [hpar]

/-- C9: with thresholds above one the checker's hysteresis holds: a single
(isolated, i.e. following no success) probe success on a dead backend does
not promote it; a single (isolated) probe failure on an alive backend does
not demote it; and the strictly alternating trace S, F, S, F, ... on a
dead backend with `HealthyThreshold` = 2 never promotes it. -/
theorem health_hysteresis (cfg : HealthCheckConfig) :
    (∀ (health : BackendHealth) (t : Int), 1 < cfg.HealthyThreshold →
      health.consecutiveSuccesses = 0 →
      (checkBackendStep cfg false health true t).1 = false) ∧
    (∀ (health : BackendHealth) (t : Int), 1 < cfg.UnhealthyThreshold →
      health.consecutiveFailures = 0 →
      (checkBackendStep cfg true health false t).1 = true) ∧
    (∀ (h0 : BackendHealth) (n : Nat), cfg.HealthyThreshold = 2 →
      h0.consecutiveSuccesses = 0 →
      (altRun cfg (false, h0) n).1 = false) := by
  refine ⟨fun health t hth hs => ?_, fun health t hth hf => ?_,
    fun h0 n hth hs => (altRun_stays_dead cfg h0 hth hs n).1⟩
  · simp only [checkBackendStep, applyProbeResult, evaluateBackendStatus, hs]
    simp
    omega
  · simp only [checkBackendStep, applyProbeResult, evaluateBackendStatus, hf]
    simp
    omega

/-- C9 witness: the three hysteresis facts at the default thresholds (2/3),
on a zeroed health record. -/
theorem health_hysteresis_witness :
    (checkBackendStep
      { Interval := 30000000000, Timeout := 5000000000
        HealthyThreshold := 2, UnhealthyThreshold := 3 } false
      { consecutiveSuccesses := 0, consecutiveFailures := 4,
        lastCheckTime := 0, lastError := none } true 7).1 = false ∧
    (checkBackendStep
      { Interval := 30000000000, Timeout := 5000000000
        HealthyThreshold := 2, UnhealthyThreshold := 3 } true
      { consecutiveSuccesses := 1, consecutiveFailures := 0,
        lastCheckTime := 0, lastError := none } false 7).1 = true ∧
    (altRun
      { Interval := 30000000000, Timeout := 5000000000
        HealthyThreshold := 2, UnhealthyThreshold := 3 }
      (false,
        { consecutiveSuccesses := 0, consecutiveFailures := 3,
          lastCheckTime := 0, lastError := none }) 6).1 = false :=
  ⟨(health_hysteresis _).1 _ 7 (by decide) rfl,
   (health_hysteresis _).2.1 _ 7 (by decide) rfl,
   (health_hysteresis _).2.2 _ 6 rfl rfl⟩

/-- Keeping the entries a Boolean predicate rejects and counting the ones it
accepts splits a list's length. -/
theorem length_filter_not_add_countP {α : Type} (p : α → Bool) (l : List α) :
    (l.filter (fun a => !p a)).length + l.countP p = l.length := by
  induction l with
  | nil => simp
  | cons a l ih =>
      cases h : p a <;> simp [List.countP_cons, h, ih] <;> omega

/-- The counter invariant of the second-revision pool: `activeCount` stays
within `[0, maxActive]`, and while the pool is open it equals the number of
checked-out connections plus the number of idle entries (in this revision
an idle entry stays counted in `activeCount`). -/
def PoolInv (s : PoolTraceState) : Prop :=
  0 ≤ s.pool.activeCount ∧
  s.pool.activeCount ≤ s.pool.config.maxActive ∧
  (s.pool.closed = false →
    s.pool.activeCount = s.outstanding + s.pool.idleConns.length)


/-- Every admissible pool operation preserves the counter invariant. -/
theorem poolInv_step (s : PoolTraceState) (op : PoolOp)
    (hok : s.opOk op = true) (hI : PoolInv s) : PoolInv (s.step op) := by
  obtain ⟨h0, hmax, hlink⟩ := hI
  cases op with
  | get dial =>
      simp only [PoolTraceState.step, ConnectionPool.Get]
      cases hc : s.pool.closed with
      | true => exact ⟨h0, hmax, fun hcl => absurd hcl (by simp [hc])⟩
      | false =>
          have hlink2 := hlink hc
          cases hl : s.pool.idleConns.getLast? with
          | some pc =>
              have hlen : 1 ≤ s.pool.idleConns.length := by
                cases hll : s.pool.idleConns with
                | nil => rw [hll] at hl; simp at hl
                | cons x xs => simp [hll]
              refine ⟨h0, hmax, fun hcl => ?_⟩
              show s.pool.activeCount =
                ((s.outstanding + 1 : Nat) : Int) + (s.pool.idleConns.dropLast.length : Int)
              rw [List.length_dropLast]
              omega
          | none =>
              by_cases hge : s.pool.activeCount ≥ s.pool.config.maxActive
              · rw [if_pos hge]
                exact ⟨h0, hmax, fun _ => hlink2⟩
              · rw [if_neg hge]
                cases dial with
                | error e => exact ⟨h0, hmax, fun _ => hlink2⟩
                | ok c =>
                    refine ⟨?_, ?_, fun hcl => ?_⟩
                    · show 0 ≤ s.pool.activeCount + 1
                      omega
                    · show s.pool.activeCount + 1 ≤ s.pool.config.maxActive
                      omega
                    · show s.pool.activeCount + 1 =
                        ((s.outstanding + 1 : Nat) : Int) + (s.pool.idleConns.length : Int)
                      omega
  | put conn now =>
      have hout : 0 < s.outstanding := by
        simpa [PoolTraceState.opOk] using hok
      simp only [PoolTraceState.step, ConnectionPool.put]
      cases hc : s.pool.closed with
      | true => exact ⟨h0, hmax, fun hcl => absurd hcl (by simp [hc])⟩
      | false =>
          have hlink2 := hlink hc
          by_cases hfull : (s.pool.idleConns.length : Int) ≥ s.pool.config.maxIdle
          · rw [if_pos hfull]
            refine ⟨?_, ?_, fun hcl => ?_⟩
            · show 0 ≤ s.pool.activeCount - 1
              omega
            · show s.pool.activeCount - 1 ≤ s.pool.config.maxActive
              omega
            · show s.pool.activeCount - 1 =
                ((s.outstanding - 1 : Nat) : Int) + (s.pool.idleConns.length : Int)
              omega
          · rw [if_neg hfull]
            refine ⟨h0, hmax, fun hcl => ?_⟩
            show s.pool.activeCount = ((s.outstanding - 1 : Nat) : Int) +
              ((s.pool.idleConns ++
                [({ conn := conn, lastUsedAt := now } : PoolConn)]).length : Int)
            rw [List.length_append]
            simp only [List.length_cons, List.length_nil]
            omega
  | close =>
      refine ⟨h0, hmax, fun hcl => ?_⟩
      exact absurd hcl (by simp [PoolTraceState.step, ConnectionPool.Close])
  | cleanup now =>
      simp only [PoolTraceState.step, ConnectionPool.cleanup]
      cases hc : s.pool.closed with
      | true => exact ⟨h0, hmax, fun hcl => absurd hcl (by simp [hc])⟩
      | false =>
          have hlink2 := hlink hc
          have hsplit : (s.pool.idleConns.filter
              (fun pc => !pc.expired s.pool.config.idleTimeout now)).length +
              s.pool.idleConns.countP
                (fun pc => pc.expired s.pool.config.idleTimeout now) =
              s.pool.idleConns.length :=
            length_filter_not_add_countP _ _
          refine ⟨?_, ?_, fun hcl => ?_⟩
          · show 0 ≤ s.pool.activeCount -
              ((s.pool.idleConns.countP
                (fun pc => pc.expired s.pool.config.idleTimeout now) : Nat) : Int)
            omega
          · show s.pool.activeCount -
              ((s.pool.idleConns.countP
                (fun pc => pc.expired s.pool.config.idleTimeout now) : Nat) : Int) ≤
              s.pool.config.maxActive
            omega
          · show s.pool.activeCount -
              ((s.pool.idleConns.countP
                (fun pc => pc.expired s.pool.config.idleTimeout now) : Nat) : Int) =
              (s.outstanding : Int) +
              ((s.pool.idleConns.filter
                (fun pc => !pc.expired s.pool.config.idleTimeout now)).length : Int)
            omega

/-- The counter invariant is preserved along any admissible operation
sequence. -/
theorem poolInv_runOps (ops : List PoolOp) :
    ∀ s : PoolTraceState, s.validOps ops = true → PoolInv s →
      PoolInv (s.runOps ops) := by
  induction ops with
  | nil => intro s _ hI; exact hI
  | cons op rest ih =>
      intro s hv hI
      rw [PoolTraceState.validOps, Bool.and_eq_true] at hv
      exact ih (s.step op) hv.2 (poolInv_step s op hv.1 hI)

/-- A prefix of an admissible operation sequence is admissible. -/
theorem validOps_take (ops : List PoolOp) :
    ∀ (s : PoolTraceState) (n : Nat), s.validOps ops = true →
      s.validOps (ops.take n) = true := by
  induction ops with
  | nil => intro s n _; simp [PoolTraceState.validOps]
  | cons op rest ih =>
      intro s n hv
      rw [PoolTraceState.validOps, Bool.and_eq_true] at hv
      cases n with
      | zero => simp [PoolTraceState.validOps]
      | succ n =>
          rw [List.take_succ_cons, PoolTraceState.validOps, Bool.and_eq_true]
          exact ⟨hv.1, ih (s.step op) n hv.2⟩

/-- C1 (amended): starting from a freshly constructed pool with a
non-negative `maxActive`, along every admissible sequence of Get, put,
Close and cleanup operations, at every lock release `activeCount ≥ 0` and
`activeCount ≤ maxActive`.  (The claimed bound
`activeCount + len(idleConns) ≤ maxActive` fails in this revision because
an idle entry stays counted inside `activeCount`.) -/
theorem pool_counter_invariant_amended (address : String)
    (maxIdle maxActive idleTimeout : Int) (hmax : 0 ≤ maxActive)
    (ops : List PoolOp) (n : Nat)
    (hv : (initPoolState address maxIdle maxActive idleTimeout).validOps ops = true) :
    0 ≤ ((initPoolState address maxIdle maxActive idleTimeout).runOps
          (ops.take n)).pool.activeCount ∧
    ((initPoolState address maxIdle maxActive idleTimeout).runOps
          (ops.take n)).pool.activeCount ≤
      ((initPoolState address maxIdle maxActive idleTimeout).runOps
          (ops.take n)).pool.config.maxActive := by
  have hI : PoolInv (initPoolState address maxIdle maxActive idleTimeout) :=
    ⟨le_refl 0, hmax, fun _ => by simp [initPoolState, NewConnectionPool]⟩
  have h := poolInv_runOps (ops.take n) _ (validOps_take ops _ n hv) hI
  exact ⟨h.1, h.2.1⟩

/-- C1 witness: an admissible two-operation trace (a dialed `Get` followed by
its `put`) on a pool with `maxIdle = maxActive = 1`, checked after both
operations. -/
theorem pool_counter_invariant_amended_witness :
    0 ≤ ((initPoolState "b1:80" 1 1 1000).runOps
          ([PoolOp.get (.ok 7), PoolOp.put 7 99].take 2)).pool.activeCount ∧
    ((initPoolState "b1:80" 1 1 1000).runOps
          ([PoolOp.get (.ok 7), PoolOp.put 7 99].take 2)).pool.activeCount ≤
      ((initPoolState "b1:80" 1 1 1000).runOps
          ([PoolOp.get (.ok 7), PoolOp.put 7 99].take 2)).pool.config.maxActive :=
  pool_counter_invariant_amended "b1:80" 1 1 1000 (by decide)
    [PoolOp.get (.ok 7), PoolOp.put 7 99] 2 (by decide)

/-- C1 counterexample: the same admissible trace ends, at a lock release,
with `activeCount + len(idleConns) = 2 > 1 = maxActive`, refuting the
claimed bound `activeCount + len(idleConns) ≤ maxActive`. -/
theorem pool_counter_invariant_counterexample :
    (initPoolState "b1:80" 1 1 1000).validOps
        [PoolOp.get (.ok 7), PoolOp.put 7 99] = true ∧
    ((initPoolState "b1:80" 1 1 1000).runOps
        [PoolOp.get (.ok 7), PoolOp.put 7 99]).pool.activeCount +
      (((initPoolState "b1:80" 1 1 1000).runOps
        [PoolOp.get (.ok 7), PoolOp.put 7 99]).pool.idleConns.length : Int) >
      ((initPoolState "b1:80" 1 1 1000).runOps
        [PoolOp.get (.ok 7), PoolOp.put 7 99]).pool.config.maxActive := by
  decide

/-- Reducing a number below `2K` modulo `K` subtracts `K` at most once. -/
theorem two_block_mod_or (x K : Nat) (hx : x < 2 * K) :
    (x < K ∧ x % K = x) ∨ (K ≤ x ∧ x % K = x - K) := by
  rcases lt_or_ge x K with h | h
  · exact Or.inl ⟨h, Nat.mod_eq_of_lt h⟩
  · refine Or.inr ⟨h, ?_⟩
    rw [Nat.mod_eq_sub_mod h]
    exact Nat.mod_eq_of_lt (by omega)

/-- Counting over `List.range` is the cardinality of the corresponding
filtered `Finset.range`. -/
theorem countP_range_eq_card (n : Nat) (p : Nat → Prop) [DecidablePred p] :
    (List.range n).countP (fun j => decide (p j)) = ((Finset.range n).filter p).card := by
  induction n with
  | zero => simp
  | succ n ih =>
      rw [List.range_succ, List.countP_append, Finset.range_succ, Finset.filter_insert]
      by_cases h : p n
      · rw [if_pos h, Finset.card_insert_of_not_mem (by simp)]
        simp [List.countP_cons, h, ih]
      · rw [if_neg h]
        simp [List.countP_cons, h, ih]

/-- Within any window of `K` consecutive values, exactly one value is
congruent to `i` modulo `K`. -/
theorem block_filter_singleton (a K i : Nat) (hK : 0 < K) (hi : i < K) :
    (Finset.range K).filter (fun j => (a + j) % K = i) =
      { (i + K - a % K) % K } := by
  have hr : a % K < K := Nat.mod_lt _ hK
  have hj0 := two_block_mod_or (i + K - a % K) K (by omega)
  ext j
  simp only [Finset.mem_filter, Finset.mem_range, Finset.mem_singleton]
  constructor
  · rintro ⟨hj, hmod⟩
    have h1 : (a + j) % K = (a % K + j) % K := by
      rw [Nat.add_mod, Nat.mod_eq_of_lt hj]
    have h2 := two_block_mod_or (a % K + j) K (by omega)
    rw [h1] at hmod
    omega
  · intro hj
    subst hj
    have hlt : (i + K - a % K) % K < K := Nat.mod_lt _ hK
    refine ⟨hlt, ?_⟩
    have h1 : (a + (i + K - a % K) % K) % K = (a % K + (i + K - a % K) % K) % K := by
      rw [Nat.add_mod, Nat.mod_eq_of_lt hlt]
    have h2 := two_block_mod_or (a % K + (i + K - a % K) % K) K (by omega)
    rw [h1]
    omega

/-- How many of the `N` counter values `a, a+1, ..., a+N-1` select index `i`
modulo `K`. -/
def rrHits (a K i N : Nat) : Nat :=
  (List.range N).countP (fun j => decide ((a + j) % K = i))

/-- A full window of `K` consecutive counter values selects index `i`
exactly once. -/
theorem rrHits_block_one (a K i : Nat) (hK : 0 < K) (hi : i < K) :
    rrHits a K i K = 1 := by
  rw [rrHits, countP_range_eq_card K (fun j => (a + j) % K = i),
    block_filter_singleton a K i hK hi, Finset.card_singleton]

/-- A window of at most `K` consecutive counter values selects index `i` at
most once. -/
theorem rrHits_le_one (a K i s : Nat) (hK : 0 < K) (hs : s ≤ K) :
    rrHits a K i s ≤ 1 := by
  rw [rrHits, countP_range_eq_card s (fun j => (a + j) % K = i)]
  refine Finset.card_le_one.mpr ?_
  intro x hx y hy
  simp only [Finset.mem_filter, Finset.mem_range] at hx hy
  obtain ⟨hxs, hxm⟩ := hx
  obtain ⟨hys, hym⟩ := hy
  have hr : a % K < K := Nat.mod_lt _ hK
  have hxK : x < K := by omega
  have hyK : y < K := by omega
  have h1 : (a + x) % K = (a % K + x) % K := by
    rw [Nat.add_mod, Nat.mod_eq_of_lt hxK]
  have h2 : (a + y) % K = (a % K + y) % K := by
    rw [Nat.add_mod, Nat.mod_eq_of_lt hyK]
  have h3 := two_block_mod_or (a % K + x) K (by omega)
  have h4 := two_block_mod_or (a % K + y) K (by omega)
  rw [h1] at hxm
  rw [h2] at hym
  omega

/-- Splitting a window of counter values. -/
theorem rrHits_split (a K i n m : Nat) :
    rrHits a K i (n + m) = rrHits a K i n + rrHits (a + n) K i m := by
  unfold rrHits
  rw [List.range_add, List.countP_append, List.countP_map]
  simp only [Function.comp_def, Nat.add_assoc]

/-- `q` full windows select index `i` exactly `q` times. -/
theorem rrHits_mul (a K i q : Nat) (hK : 0 < K) (hi : i < K) :
    rrHits a K i (q * K) = q := by
  induction q with
  | zero => simp [rrHits]
  | succ q ih =>
      have hq : (q + 1) * K = q * K + K := by ring
      rw [hq, rrHits_split, ih, rrHits_block_one (a + q * K) K i hK hi]

/-- Over any `N` consecutive counter values, index `i` is selected either
`⌊N/K⌋` or `⌈N/K⌉` times. -/
theorem rrHits_floor_ceil (a K i N : Nat) (hK : 0 < K) (hi : i < K) :
    rrHits a K i N = N / K ∨ rrHits a K i N = (N + K - 1) / K := by
  obtain ⟨q, s, hN, hs⟩ : ∃ q s, N = q * K + s ∧ s < K :=
    ⟨N / K, N % K, by rw [Nat.mul_comm]; exact (Nat.div_add_mod N K).symm,
      Nat.mod_lt _ hK⟩
  subst hN
  rw [rrHits_split, rrHits_mul a K i q hK hi]
  have hdiv1 : (q * K + s) / K = q := by
    rw [Nat.mul_comm q K, Nat.mul_add_div hK, Nat.div_eq_of_lt hs, Nat.add_zero]
  have hle := rrHits_le_one (a + q * K) K i s hK (le_of_lt hs)
  by_cases hs0 : s = 0
  · subst hs0
    have hx : rrHits (a + q * K) K i 0 = 0 := by simp [rrHits]
    left
    omega
  · have hceil : (q * K + s + K - 1) / K = q + 1 := by
      have e1 : K * (q + 1) = K * q + K := by ring
      have e2 : q * K = K * q := Nat.mul_comm q K
      have h1 : q * K + s + K - 1 = K * (q + 1) + (s - 1) := by omega
      rw [h1, Nat.mul_add_div hK, Nat.div_eq_of_lt (by omega), Nat.add_zero]
    rcases Nat.eq_zero_or_pos (rrHits (a + q * K) K i s) with h | h
    · left
      omega
    · right
      omega

/-- As long as the counter does not wrap, the number of times `N` successive
`Next` calls return the snapshot entry at index `i` is the number of counter
values selecting `i`. -/
theorem run_count (snapshot : List Backend) (hnd : snapshot.Nodup)
    (i : Fin snapshot.length) :
    ∀ (N c0 : Nat), c0 + N < uint64Mod →
      ((RoundRobin.mk c0).run snapshot N).1.count (snapshot.get i) =
        rrHits (c0 + 1) snapshot.length (i : Nat) N := by
  intro N
  induction N with
  | zero => intro c0 _; simp [RoundRobin.run, rrHits]
  | succ n ih =>
      intro c0 hlt
      have hKpos : 0 < snapshot.length := i.pos
      have hKne : ¬ (snapshot.length = 0) := by omega
      have hwrap : (c0 + 1) % uint64Mod = c0 + 1 := Nat.mod_eq_of_lt (by omega)
      simp only [RoundRobin.run, RoundRobin.Next]
      rw [dif_neg hKne]
      simp only [hwrap]
      rw [List.count_cons, ih (c0 + 1) (by omega)]
      have hsplit1 : rrHits (c0 + 1) snapshot.length (i : Nat) (n + 1) =
          rrHits (c0 + 1) snapshot.length (i : Nat) (1 + n) := by
        rw [Nat.add_comm n 1]
      rw [hsplit1, rrHits_split]
      have h_one : rrHits (c0 + 1) snapshot.length (i : Nat) 1 =
          if (c0 + 1) % snapshot.length = (i : Nat) then 1 else 0 := by
        by_cases hc : (c0 + 1) % snapshot.length = (i : Nat) <;>
          simp [rrHits, List.range_succ, List.countP_cons, hc]
      rw [h_one]
      simp only [beq_iff_eq, hnd.get_inj_iff, Fin.ext_iff]
      exact Nat.add_comm _ _

/-- C8 (amended): over `N ≥ 1` successive `Next` calls by a single caller
against a stable non-empty duplicate-free snapshot of size `K`, provided
the uint64 counter does not wrap inside the window (`c0 + N < 2^64` for the
counter value `c0` before the first call), every snapshot entry is returned
either `⌊N/K⌋` or `⌈N/K⌉` times. -/
theorem roundRobin_distribution_amended (snapshot : List Backend)
    (hnd : snapshot.Nodup) (i : Fin snapshot.length) (c0 N : Nat) (hN : 1 ≤ N)
    (hwrap : c0 + N < uint64Mod) :
    ((RoundRobin.mk c0).run snapshot N).1.count (snapshot.get i) =
      N / snapshot.length ∨
    ((RoundRobin.mk c0).run snapshot N).1.count (snapshot.get i) =
      (N + snapshot.length - 1) / snapshot.length := by
  rw [run_count snapshot hnd i N c0 hwrap]
  exact rrHits_floor_ceil (c0 + 1) snapshot.length (i : Nat) N i.pos i.isLt

/-- C8 witness: three calls against a stable two-backend snapshot starting
from a fresh counter; the first backend is returned `⌊3/2⌋ = 1` time. -/
theorem roundRobin_distribution_amended_witness :
    ((RoundRobin.mk 0).run [NewBackend "a:1", NewBackend "b:2"] 3).1.count
        ([NewBackend "a:1", NewBackend "b:2"].get ⟨0, by decide⟩) =
      3 / [NewBackend "a:1", NewBackend "b:2"].length ∨
    ((RoundRobin.mk 0).run [NewBackend "a:1", NewBackend "b:2"] 3).1.count
        ([NewBackend "a:1", NewBackend "b:2"].get ⟨0, by decide⟩) =
      (3 + [NewBackend "a:1", NewBackend "b:2"].length - 1) /
        [NewBackend "a:1", NewBackend "b:2"].length :=
  roundRobin_distribution_amended [NewBackend "a:1", NewBackend "b:2"]
    (by decide) ⟨0, by decide⟩ 0 3 (by decide) (by decide)

/-- C8 counterexample: when the uint64 counter wraps inside the window the
distribution bound fails.  With a stable three-backend snapshot and the
counter at `2^64 - 2`, two successive calls both select index 0 (counters
`2^64 - 1` and, after wrap, `0`, both ≡ 0 mod 3), so that backend is
returned 2 times while `⌊2/3⌋ = 0` and `⌈2/3⌉ = 1`. -/
theorem roundRobin_distribution_counterexample :
    ([NewBackend "a:1", NewBackend "b:2", NewBackend "c:3"] : List Backend).Nodup ∧
    ((RoundRobin.mk (uint64Mod - 2)).run
        [NewBackend "a:1", NewBackend "b:2", NewBackend "c:3"] 2).1.count
      ([NewBackend "a:1", NewBackend "b:2", NewBackend "c:3"].get ⟨0, by decide⟩) = 2 ∧
    (2 : Nat) ≠ 2 / 3 ∧ (2 : Nat) ≠ (2 + 3 - 1) / 3 := by
  decide
